import Mathlib

/-!
Shallow embedding of the reactive-component runtime in
`src/packages/base/src/UI5Element.js` (state store, property accessors,
slot distribution, child-change propagation, invalidation core, `define`)
and of the animation-mode module in `src/unnamed/part_000`.

JavaScript values are modelled by `UI5.JSVal`; strict equality (`===`/`!==`)
is the derived decidable equality (object identity is address equality on
`ref`).  Stateful methods become explicit state-passing functions returning
the updated state together with the observable effects (scheduled render
tasks, emitted warnings, listener flags, ...).
-/

namespace UI5

/-- Model of a JavaScript value as far as the runtime inspects it.
Objects and arrays are represented by a heap address, so that the derived
equality is exactly JavaScript shallow identity (`===`). -/
inductive JSVal where
  | undef
  | null
  | bool (b : Bool)
  | num (n : Int)
  | str (s : String)
  | ref (addr : Nat)
deriving DecidableEq, Repr

/-- Lookup in a JS object modelled as an association list (first binding wins;
the runtime never creates duplicate keys). -/
def lookupStore (st : List (String × JSVal)) (p : String) : Option JSVal :=
  match st with
  | [] => none
  | (q, v) :: rest => if q = p then some v else lookupStore rest p

/-- Model of the JS assignment `st[p] = v`: replaces the binding when present,
adds it otherwise. -/
def setStore (st : List (String × JSVal)) (p : String) (v : JSVal) :
    List (String × JSVal) :=
  match st with
  | [] => [(p, v)]
  | (q, w) :: rest => if q = p then (q, v) :: rest else (q, w) :: setStore rest p v

/-- Model of the JS read `st[p]`, which yields `undefined` for an absent key. -/
def getStore (st : List (String × JSVal)) (p : String) : JSVal :=
  (lookupStore st p).getD JSVal.undef

/-- Per-instance bookkeeping of `UI5Element` relevant to invalidation:
`_state` (restricted to plain property values), the `_invalidated` flag,
the `_suppressInvalidation` flag, and whether `getDomRef()` currently
returns rendered output (`shadowRoot` populated). -/
structure Component where
  state : List (String × JSVal)
  invalidated : Bool
  suppressInvalidation : Bool
  hasDomRef : Bool
deriving DecidableEq, Repr

/-- Model of `_invalidate` (UI5Element.js lines 414-425): early return when
`_invalidated` is already set; otherwise, when `getDomRef()` is truthy and
invalidation is not suppressed, set `_invalidated` and call
`RenderScheduler.renderDeferred`.  Returns the updated component and whether
a deferred render task was enqueued. -/
def invalidateStep (c : Component) : Component × Bool :=
  if c.invalidated then (c, false)
  else if c.hasDomRef && !c.suppressInvalidation then
    ({ c with invalidated := true }, true)
  else (c, false)

/-- Observable effects of one property-setter invocation. -/
structure SetEffects where
  comp : Component
  invalidateCalled : Bool
  propertyChangeCalled : Bool
  renderScheduled : Bool
deriving DecidableEq, Repr

/-- Model of the property setter generated by `_generateAccessors`
(UI5Element.js lines 755-765): validate the value, compare it with `!==`
against the stored value, and only on a difference store it, call
`_invalidate(prop, value)` and `_propertyChange(prop, value)`.
`validate` stands for `UI5ElementMetadata.validatePropertyValue` (that file
is not part of the sources; the setter only forwards to it).  An attribute
update can only be emitted from inside `_propertyChange`, so
`propertyChangeCalled = false` also means no attribute update. -/
def setProp (validate : String → JSVal → JSVal) (p : String) (raw : JSVal)
    (c : Component) : SetEffects :=
  let value := validate p raw
  let oldState := getStore c.state p
  if oldState ≠ value then
    let c1 : Component := { c with state := setStore c.state p value }
    let step := invalidateStep c1
    { comp := step.1, invalidateCalled := true, propertyChangeCalled := true,
      renderScheduled := step.2 }
  else
    { comp := c, invalidateCalled := false, propertyChangeCalled := false,
      renderScheduled := false }

/-- Trace of a sequence of property writes performed before the scheduler
runs: final component, number of `_invalidate` calls issued by the setters,
and number of deferred render tasks enqueued (each enqueued task fires the
render callback once at the scheduler's next execution). -/
structure WriteTrace where
  comp : Component
  invalidateCalls : Nat
  renderTasks : Nat
deriving DecidableEq, Repr

/-- Run a list of `(property, rawValue)` writes through the generated setter. -/
def runWrites (validate : String → JSVal → JSVal) (c : Component) :
    List (String × JSVal) → WriteTrace
  | [] => { comp := c, invalidateCalls := 0, renderTasks := 0 }
  | w :: rest =>
    let e := setProp validate w.1 w.2 c
    let t := runWrites validate e.comp rest
    { comp := t.comp,
      invalidateCalls := (if e.invalidateCalled then 1 else 0) + t.invalidateCalls,
      renderTasks := (if e.renderScheduled then 1 else 0) + t.renderTasks }

/-- Raw value of the last write to property `p` in a write sequence. -/
def lastWrite (p : String) : List (String × JSVal) → Option JSVal
  | [] => none
  | w :: rest =>
    match lastWrite p rest with
    | some v => some v
    | none => if w.1 = p then some w.2 else none

/-- Modelled from the spec: `validatePropertyValue` (UI5ElementMetadata.js is
not among the sources) is a passthrough coercion for String and Object
properties. -/
def stringPassthrough : String → JSVal → JSVal := fun _ v => v

lemma getStore_cons (a q : String) (w : JSVal) (tl : List (String × JSVal)) :
    getStore ((a, w) :: tl) q = if a = q then w else getStore tl q := by
  by_cases h : a = q <;> simp [getStore, lookupStore, h]

lemma getStore_setStore (p q : String) (v : JSVal) :
    ∀ st : List (String × JSVal),
      getStore (setStore st p v) q = if p = q then v else getStore st q := by
  intro st
  induction st with
  | nil => by_cases h : p = q <;> simp [setStore, getStore, lookupStore, h]
  | cons hd tl ih =>
    obtain ⟨a, w⟩ := hd
    by_cases hap : a = p
    · have h1 : setStore ((a, w) :: tl) p v = (a, v) :: tl := by
        simp [setStore, hap]
      rw [h1]
      by_cases hq : p = q
      · simp [getStore_cons, hq, hap.trans hq]
      · have haq : ¬ a = q := by rw [hap]; exact hq
        simp [getStore_cons, hq, haq]
    · have h1 : setStore ((a, w) :: tl) p v = (a, w) :: setStore tl p v := by
        simp [setStore, hap]
      rw [h1]
      by_cases haq : a = q
      · have hpq : ¬ p = q := by
          intro hh
          exact hap (haq.trans hh.symm)
        simp [getStore_cons, haq, hpq]
      · simp [getStore_cons, haq, ih]

lemma invalidateStep_spec (c : Component) :
    (invalidateStep c).1.state = c.state ∧
    (invalidateStep c).1.hasDomRef = c.hasDomRef ∧
    (invalidateStep c).1.suppressInvalidation = c.suppressInvalidation ∧
    (invalidateStep c).1.invalidated =
      (c.invalidated || (c.hasDomRef && !c.suppressInvalidation)) ∧
    (invalidateStep c).2 =
      (!c.invalidated && (c.hasDomRef && !c.suppressInvalidation)) := by
  cases hc : c.invalidated <;> cases hd : c.hasDomRef <;>
    cases hs : c.suppressInvalidation <;> simp [invalidateStep, hc, hd, hs]

lemma setProp_eq_noop (V : String → JSVal → JSVal) (p : String) (v : JSVal)
    (c : Component) (h : getStore c.state p = V p v) :
    setProp V p v c =
      { comp := c, invalidateCalled := false, propertyChangeCalled := false,
        renderScheduled := false } := by
  simp [setProp, h]

lemma setProp_ne_changed (V : String → JSVal → JSVal) (p : String) (v : JSVal)
    (c : Component) (h : ¬ getStore c.state p = V p v) :
    setProp V p v c =
      { comp := (invalidateStep { c with state := setStore c.state p (V p v) }).1,
        invalidateCalled := true, propertyChangeCalled := true,
        renderScheduled :=
          (invalidateStep { c with state := setStore c.state p (V p v) }).2 } := by
  simp [setProp, h]

lemma setProp_comp_state (V : String → JSVal → JSVal) (p : String) (v : JSVal)
    (c : Component) (q : String) :
    getStore (setProp V p v c).comp.state q =
      if p = q then V p v else getStore c.state q := by
  by_cases h : getStore c.state p = V p v
  · rw [setProp_eq_noop V p v c h]
    by_cases hpq : p = q
    · rw [if_pos hpq, ← hpq]
      exact h
    · rw [if_neg hpq]
  · rw [setProp_ne_changed V p v c h]
    have hi := (invalidateStep_spec { c with state := setStore c.state p (V p v) }).1
    simp only [hi]
    exact getStore_setStore p q (V p v) c.state

lemma setProp_spec (V : String → JSVal → JSVal) (p : String) (v : JSVal)
    (c : Component) :
    (setProp V p v c).comp.hasDomRef = c.hasDomRef ∧
    (setProp V p v c).comp.suppressInvalidation = c.suppressInvalidation ∧
    (setProp V p v c).comp.invalidated =
      (c.invalidated ||
        ((setProp V p v c).invalidateCalled && (c.hasDomRef && !c.suppressInvalidation))) ∧
    (setProp V p v c).renderScheduled =
      ((setProp V p v c).invalidateCalled &&
        (!c.invalidated && (c.hasDomRef && !c.suppressInvalidation))) := by
  by_cases h : getStore c.state p = V p v
  · rw [setProp_eq_noop V p v c h]
    simp
  · rw [setProp_ne_changed V p v c h]
    obtain ⟨_, h2, h3, h4, h5⟩ :=
      invalidateStep_spec { c with state := setStore c.state p (V p v) }
    simp only [h2, h3, h4, h5]
    simp [Bool.and_comm]

lemma runWrites_spec (V : String → JSVal → JSVal)
    (ws : List (String × JSVal)) :
    ∀ c : Component, c.hasDomRef = true → c.suppressInvalidation = false →
      (runWrites V c ws).comp.hasDomRef = true ∧
      (runWrites V c ws).comp.suppressInvalidation = false ∧
      (runWrites V c ws).renderTasks =
        (if c.invalidated then 0 else min 1 (runWrites V c ws).invalidateCalls) := by
  induction ws with
  | nil =>
    intro c hdom hsup
    refine ⟨hdom, hsup, ?_⟩
    simp [runWrites]
  | cons w rest ih =>
    intro c hdom hsup
    obtain ⟨hp1, hp2, hp3, hp4⟩ := setProp_spec V w.1 w.2 c
    rw [hdom, hsup] at hp3 hp4
    simp only [Bool.not_false, Bool.and_true] at hp3 hp4
    have hdom1 : (setProp V w.1 w.2 c).comp.hasDomRef = true := by rw [hp1]; exact hdom
    have hsup1 : (setProp V w.1 w.2 c).comp.suppressInvalidation = false := by
      rw [hp2]; exact hsup
    obtain ⟨ih1, ih2, ih3⟩ := ih (setProp V w.1 w.2 c).comp hdom1 hsup1
    have hrw : runWrites V c (w :: rest) =
        { comp := (runWrites V (setProp V w.1 w.2 c).comp rest).comp,
          invalidateCalls := (if (setProp V w.1 w.2 c).invalidateCalled then 1 else 0)
            + (runWrites V (setProp V w.1 w.2 c).comp rest).invalidateCalls,
          renderTasks := (if (setProp V w.1 w.2 c).renderScheduled then 1 else 0)
            + (runWrites V (setProp V w.1 w.2 c).comp rest).renderTasks } := rfl
    rw [hrw]
    refine ⟨ih1, ih2, ?_⟩
    cases hc : c.invalidated with
    | true =>
      rw [hc] at hp3 hp4
      simp only [Bool.true_or] at hp3
      simp only [Bool.not_true, Bool.and_false] at hp4
      rw [hp3] at ih3
      simp only [if_true] at ih3
      simp [hp4, ih3]
    | false =>
      rw [hc] at hp3 hp4
      simp only [Bool.false_or] at hp3
      simp only [Bool.not_false, Bool.and_true] at hp4
      cases hcall : (setProp V w.1 w.2 c).invalidateCalled with
      | false =>
        rw [hcall] at hp3 hp4
        rw [hp3] at ih3
        simp only [Bool.false_eq_true, if_false] at ih3
        simp [hp4, ih3]
      | true =>
        rw [hcall] at hp3 hp4
        rw [hp3] at ih3
        simp only [if_true] at ih3
        rw [ih3, hp4]
        simp

lemma runWrites_getStore (V : String → JSVal → JSVal)
    (ws : List (String × JSVal)) :
    ∀ (c : Component) (q : String),
      getStore (runWrites V c ws).comp.state q =
        (match lastWrite q ws with
         | some v => V q v
         | none => getStore c.state q) := by
  induction ws with
  | nil =>
    intro c q
    simp [runWrites, lastWrite]
  | cons w rest ih =>
    intro c q
    have h1 : (runWrites V c (w :: rest)).comp =
        (runWrites V (setProp V w.1 w.2 c).comp rest).comp := rfl
    rw [h1, ih]
    cases hlw : lastWrite q rest with
    | some v => simp [lastWrite, hlw]
    | none =>
      simp only [lastWrite, hlw]
      rw [setProp_comp_state]
      by_cases hq : w.1 = q
      · subst hq
        simp
      · simp [hq]

/-- A rendered, idle component holding one String property, used as the
concrete test instance. -/
def demoComponent : Component :=
  { state := [("text", JSVal.str "a")], invalidated := false,
    suppressInvalidation := false, hasDomRef := true }

/-- A second rendered, idle component, used to instantiate the scheduling
condition of `invalidateStep`. -/
def demoIdle : Component :=
  { state := [], invalidated := false, suppressInvalidation := false,
    hasDomRef := true }

/-- Two writes to the same property issued before the scheduler runs. -/
def demoWrites : List (String × JSVal) :=
  [("text", JSVal.str "b"), ("text", JSVal.str "c")]

/-- C1 (amended).  An invalidation request schedules a deferred render iff the
instance is not already invalidated, has rendered output, and invalidation is
not suppressed; and for every sequence of property writes issued before the
scheduler's next execution the render callback fires at most once — exactly
once iff at least one write stored a new value (one `_invalidate` call was
issued) — and the state it renders maps each written property to the
validated value of its last write (last-write-wins). -/
theorem invalidation_gate_and_write_coalescing
    (V : String → JSVal → JSVal) (c d : Component)
    (ws : List (String × JSVal)) (p : String) (v : JSVal)
    (hdom : c.hasDomRef = true) (hsup : c.suppressInvalidation = false)
    (hinv : c.invalidated = false) (hlast : lastWrite p ws = some v) :
    (invalidateStep d).2 =
      (!d.invalidated && (d.hasDomRef && !d.suppressInvalidation)) ∧
    (runWrites V c ws).renderTasks ≤ 1 ∧
    ((runWrites V c ws).renderTasks = 1 ↔
      1 ≤ (runWrites V c ws).invalidateCalls) ∧
    getStore (runWrites V c ws).comp.state p = V p v := by
  obtain ⟨-, -, h3⟩ := runWrites_spec V ws c hdom hsup
  rw [hinv] at h3
  simp only [Bool.false_eq_true, if_false] at h3
  refine ⟨(invalidateStep_spec d).2.2.2.2, ?_, ?_, ?_⟩
  · rw [h3]
    omega
  · rw [h3]
    omega
  · rw [runWrites_getStore, hlast]

/-- C1 witness: the theorem instantiated at a rendered component receiving two
writes to the property "text". -/
theorem invalidation_gate_and_write_coalescing_witness :
    (invalidateStep demoIdle).2 =
      (!demoIdle.invalidated && (demoIdle.hasDomRef && !demoIdle.suppressInvalidation)) ∧
    (runWrites stringPassthrough demoComponent demoWrites).renderTasks ≤ 1 ∧
    ((runWrites stringPassthrough demoComponent demoWrites).renderTasks = 1 ↔
      1 ≤ (runWrites stringPassthrough demoComponent demoWrites).invalidateCalls) ∧
    getStore (runWrites stringPassthrough demoComponent demoWrites).comp.state "text" =
      stringPassthrough "text" (JSVal.str "c") :=
  invalidation_gate_and_write_coalescing stringPassthrough demoComponent demoIdle
    demoWrites "text" (JSVal.str "c") rfl rfl rfl rfl

/-- C1 counterexample: a sequence of N = 1 property writes issued before the
scheduler's next execution on a rendered, unsuppressed, non-invalidated
component for which the render callback does NOT fire exactly once — the
write stores the already-stored value, so zero render tasks are enqueued,
refuting the claim as stated (it quantifies over every write sequence). -/
theorem noop_write_sequence_fires_no_render :
    demoComponent.hasDomRef = true ∧ demoComponent.invalidated = false ∧
    demoComponent.suppressInvalidation = false ∧
    (runWrites stringPassthrough demoComponent [("text", JSVal.str "a")]).renderTasks = 0 ∧
    ¬ (runWrites stringPassthrough demoComponent
        [("text", JSVal.str "a")]).renderTasks = 1 := by
  refine ⟨rfl, rfl, rfl, rfl, ?_⟩
  decide

/-- C3.  A write whose validated value is shallow-identity-equal (`===`) to
the currently stored value is a complete no-op: the component (state and
flags) is unchanged, `_invalidate` is not called, and `_propertyChange` is
not called (hence no attribute update and no notification are emitted). -/
theorem equal_write_is_complete_noop
    (V : String → JSVal → JSVal) (p : String) (raw : JSVal) (c : Component)
    (h : V p raw = getStore c.state p) :
    setProp V p raw c =
      { comp := c, invalidateCalled := false, propertyChangeCalled := false,
        renderScheduled := false } :=
  setProp_eq_noop V p raw c h.symm

/-- C3 witness: writing the stored value "a" back to property "text". -/
theorem equal_write_is_complete_noop_witness :
    setProp stringPassthrough "text" (JSVal.str "a") demoComponent =
      { comp := demoComponent, invalidateCalled := false,
        propertyChangeCalled := false, renderScheduled := false } :=
  equal_write_is_complete_noop stringPassthrough "text" (JSVal.str "a")
    demoComponent rfl

/-! Slot distribution (`_updateSlots`, lines 164-238) and the structures it
inspects on light-DOM children. -/

/-- A light-DOM child as inspected by `_updateSlots` and `_getSlotName`: an
identity, whether it is an HTMLElement (text nodes are not), its `slot`
attribute (absent attribute = `none`), whether it duck-types as a UI5
element (`isUI5Element`), whether the shared prototype `_propertyChange`
listener is currently attached to it, and its assigned `_individualSlot`. -/
structure DChild where
  id : Nat
  isElem : Bool
  slotAttr : Option String := none
  isUI5 : Bool := false
  hasListener : Bool := false
  individualSlot : Option String := none
deriving DecidableEq, Repr

/-- Model of the `listenFor` slot option read by `_attachChildPropertyUpdated`
(lines 338-363): either a plain array of property names, or a configuration
object whose `props` and `exclude` entries may each be an array or absent. -/
inductive ListenFor where
  | list (props : List String)
  | cfg (props : Option (List String)) (exclude : Option (List String))
deriving DecidableEq, Repr

/-- Declared slot metadata as consumed by `_updateSlots`, `_clearSlot` and
`_attachChildPropertyUpdated`: the backing `propertyName` override, the
`individualSlots` flag, the `listenFor` option, and whether the declared
`type` is `Node` (only inspected on the default slot, to decide whether raw
text may be slotted). -/
structure SlotData where
  propertyName : Option String := none
  individualSlots : Bool := false
  listenFor : Option ListenFor := none
  typeIsNode : Bool := false
deriving DecidableEq, Repr

/-- Lookup in a string-keyed association list (JS object / Map read). -/
def alistLookup {α : Type} (m : List (String × α)) (k : String) : Option α :=
  match m with
  | [] => none
  | (q, v) :: rest => if q = k then some v else alistLookup rest k

/-- Model of `Map.prototype.set`: replace the entry in place when the key
exists, append it otherwise (a JS Map preserves insertion order). -/
def alistSet {α : Type} (m : List (String × α)) (k : String) (v : α) :
    List (String × α) :=
  match m with
  | [] => [(k, v)]
  | (q, w) :: rest => if q = k then (q, v) :: rest else (q, w) :: alistSet rest k v

/-- Model of the regular expression `^(.+?)-\x5cd+$` of `_getSlotName`
(line 646): when the name ends in a hyphen followed by one or more digits and
a non-empty stem remains, return the stem, else return the whole name. -/
def stripIndex (slot : String) : String :=
  let rev := slot.data.reverse
  let digits := rev.takeWhile (fun ch => ch.isDigit)
  let rest := rev.dropWhile (fun ch => ch.isDigit)
  match digits, rest with
  | _ :: _, '-' :: p =>
    match p with
    | [] => slot
    | _ :: _ => String.mk p.reverse
  | _, _ => slot

/-- Model of static `_getSlotName` (lines 637-652): text nodes go to the
default slot; an element's `slot` attribute, when truthy, is stripped of an
auto-generated numeric suffix; otherwise the default slot is used. -/
def getSlotName (child : DChild) : String :=
  if !child.isElem then "default"
  else
    match child.slotAttr with
    | some slot => if slot = "" then "default" else stripIndex slot
    | none => "default"

/-- Model of the child snapshot (lines 166-167): `canSlotText` holds when the
default slot's declared type is `Node`; then all child nodes are taken,
otherwise only element children. -/
def domChildrenOf (slotsMap : List (String × SlotData)) (childNodes : List DChild) :
    List DChild :=
  let canSlotText :=
    match alistLookup slotsMap "default" with
    | some sd => sd.typeIsNode
    | none => false
  if canSlotText then childNodes else childNodes.filter (fun ch => ch.isElem)

/-- Children paired with their document-order index — the `idx` parameter of
the `domChildren.map` callback (line 177). -/
def withIdx : List DChild → Nat → List (DChild × Nat)
  | [], _ => []
  | ch :: rest, n => (ch, n) :: withIdx rest (n + 1)

/-- Model of the individual-slot assignment (lines 189-194).  The synchronous
prefix of each `domChildren.map` callback runs in document order before any
callback suspends at an `await`, so the per-slot auto-increment counters in
`autoIncrementMap` are consulted and bumped in document order; children whose
slot name is not declared were already warned about and return early. -/
def assignIndividualSlots (slotsMap : List (String × SlotData)) :
    List DChild → List (String × Nat) → List DChild
  | [], _ => []
  | ch :: rest, autoInc =>
    let slotName := getSlotName ch
    match alistLookup slotsMap slotName with
    | none => ch :: assignIndividualSlots slotsMap rest autoInc
    | some slotData =>
      if slotData.individualSlots then
        let nextId := ((alistLookup autoInc slotName).getD 0) + 1
        { ch with individualSlot := some (slotName ++ "-" ++ toString nextId) } ::
          assignIndividualSlots slotsMap rest (alistSet autoInc slotName nextId)
      else ch :: assignIndividualSlots slotsMap rest autoInc

/-- The backing property a child resolves to (lines 179-187 and 221): the slot
name from `_getSlotName`; a slot name not present in the declared slots map is
a non-fatal console warning and the child is dropped (`none`); otherwise
`slotData.propertyName || slotName`. -/
def targetProperty (slotsMap : List (String × SlotData)) (child : DChild) :
    Option String :=
  let slotName := getSlotName child
  match alistLookup slotsMap slotName with
  | none => none
  | some slotData => some (slotData.propertyName.getD slotName)

/-- Model of the `slottedChildrenMap` insertion (lines 223-227): push
`(child, idx)` onto the entry for the backing property, creating the entry on
first use (appended at the end, as a JS Map preserves insertion order). -/
def pushGroup (groups : List (String × List (DChild × Nat))) (p : String)
    (x : DChild × Nat) : List (String × List (DChild × Nat)) :=
  match groups with
  | [] => [(p, [x])]
  | (q, l) :: rest =>
    if q = p then (q, l ++ [x]) :: rest else (q, l) :: pushGroup rest p x

/-- One resumed callback of `_updateSlots` after its awaits (lines 215-227):
resolve the backing property (dropping unknown-slot children), validate the
child (`vs` models `UI5ElementMetadata.validateSlotValue`, assumed to
succeed), and push `(validated child, idx)` onto `slottedChildrenMap`. -/
def groupStep (slotsMap : List (String × SlotData)) (vs : DChild → DChild)
    (groups : List (String × List (DChild × Nat))) (x : DChild × Nat) :
    List (String × List (DChild × Nat)) :=
  match targetProperty slotsMap x.1 with
  | none => groups
  | some p => pushGroup groups p (vs x.1, x.2)

/-- The callbacks resume in the order their awaited promises resolve — an
arbitrary permutation `order` of the document-ordered `(child, idx)` pairs —
and `await Promise.all` joins them all before the map is committed. -/
def collectGroups (slotsMap : List (String × SlotData)) (vs : DChild → DChild)
    (order : List (DChild × Nat)) : List (String × List (DChild × Nat)) :=
  order.foldl (groupStep slotsMap vs) []

/-- The comparator `(a, b) => a.idx - b.idx` of line 235: ascending document
index. -/
def idxLe (a b : DChild × Nat) : Prop := a.2 ≤ b.2

/-- Strict version of `idxLe`, used to state that document indices are
distinct and increasing. -/
def idxLt (a b : DChild × Nat) : Prop := a.2 < b.2

instance : DecidableRel idxLe := fun a b => Nat.decLe a.2 b.2

instance : IsTotal (DChild × Nat) idxLe := ⟨fun a b => Nat.le_total a.2 b.2⟩

instance : IsTrans (DChild × Nat) idxLe := ⟨fun _ _ _ => Nat.le_trans⟩

instance : IsAntisymm (DChild × Nat) idxLt :=
  ⟨fun _ _ h1 h2 => absurd h2 (Nat.lt_asymm h1)⟩

/-- The final distribution write (lines 232-236): the group collected for
backing property `p`, sorted by original document index and projected back to
the children; a declared slot property that received no children keeps the
empty array written by `_clearSlot` (modelled by `getD []`). -/
def updateSlotsResult (slotsMap : List (String × SlotData)) (vs : DChild → DChild)
    (order : List (DChild × Nat)) (p : String) : List DChild :=
  (List.insertionSort idxLe
      ((alistLookup (collectGroups slotsMap vs order) p).getD [])).map Prod.fst

/-- Specification-side reference (spec 4.4 step 4): the children targeting
backing property `p`, listed in original light-DOM document order, after
validation. -/
def docOrderGroup (slotsMap : List (String × SlotData)) (vs : DChild → DChild)
    (children : List DChild) (p : String) : List DChild :=
  ((withIdx children 0).filter
      (fun x => targetProperty slotsMap x.1 = some p)).map (fun x => vs x.1)

lemma alistLookup_pushGroup (p q : String) (x : DChild × Nat) :
    ∀ groups : List (String × List (DChild × Nat)),
      alistLookup (pushGroup groups p x) q =
        if p = q then some (((alistLookup groups q).getD []) ++ [x])
        else alistLookup groups q := by
  intro groups
  induction groups with
  | nil =>
    by_cases h : p = q <;> simp [pushGroup, alistLookup, h]
  | cons hd tl ih =>
    obtain ⟨a, l⟩ := hd
    by_cases hap : a = p
    · have h1 : pushGroup ((a, l) :: tl) p x = (a, l ++ [x]) :: tl := by
        simp [pushGroup, hap]
      rw [h1]
      by_cases hq : p = q
      · simp [alistLookup, hq, hap.trans hq]
      · have haq : ¬ a = q := by rw [hap]; exact hq
        simp [alistLookup, hq, haq]
    · have h1 : pushGroup ((a, l) :: tl) p x = (a, l) :: pushGroup tl p x := by
        simp [pushGroup, hap]
      rw [h1]
      by_cases haq : a = q
      · have hpq : ¬ p = q := by
          intro hh
          exact hap (haq.trans hh.symm)
        simp [alistLookup, haq, hpq]
      · simp [alistLookup, haq, ih]

lemma collectGroups_go (slotsMap : List (String × SlotData)) (vs : DChild → DChild)
    (p : String) :
    ∀ (order : List (DChild × Nat)) (groups : List (String × List (DChild × Nat))),
      (alistLookup (order.foldl (groupStep slotsMap vs) groups) p).getD [] =
        (alistLookup groups p).getD [] ++
          (order.filter (fun x => targetProperty slotsMap x.1 = some p)).map
            (fun x => (vs x.1, x.2)) := by
  intro order
  induction order with
  | nil =>
    intro groups
    simp
  | cons x rest ih =>
    intro groups
    have h1 : (x :: rest).foldl (groupStep slotsMap vs) groups =
        rest.foldl (groupStep slotsMap vs) (groupStep slotsMap vs groups x) := rfl
    rw [h1, ih]
    cases htp : targetProperty slotsMap x.1 with
    | none =>
      have h2 : groupStep slotsMap vs groups x = groups := by
        simp [groupStep, htp]
      have h3 : ¬ targetProperty slotsMap x.1 = some p := by
        rw [htp]
        intro hh
        exact Option.noConfusion hh
      simp [h2, h3]
    | some q =>
      have h2 : groupStep slotsMap vs groups x = pushGroup groups q (vs x.1, x.2) := by
        simp [groupStep, htp]
      rw [h2, alistLookup_pushGroup]
      by_cases hq : q = p
      · have h3 : targetProperty slotsMap x.1 = some p := by rw [htp, hq]
        simp [hq, h3]
      · have h3 : ¬ targetProperty slotsMap x.1 = some p := by
          rw [htp]
          intro hh
          exact hq (Option.some.inj hh)
        simp [hq, h3]

lemma collectGroups_lookup (slotsMap : List (String × SlotData)) (vs : DChild → DChild)
    (order : List (DChild × Nat)) (p : String) :
    (alistLookup (collectGroups slotsMap vs order) p).getD [] =
      (order.filter (fun x => targetProperty slotsMap x.1 = some p)).map
        (fun x => (vs x.1, x.2)) := by
  have h := collectGroups_go slotsMap vs p order []
  simpa [collectGroups, alistLookup] using h

lemma withIdx_idx_ge (l : List DChild) :
    ∀ n y, y ∈ withIdx l n → n ≤ y.2 := by
  induction l with
  | nil =>
    intro n y hy
    simp [withIdx] at hy
  | cons c rest ih =>
    intro n y hy
    rw [withIdx] at hy
    rcases List.mem_cons.mp hy with h | h
    · rw [h]
    · exact Nat.le_of_succ_le (ih (n + 1) y h)

lemma withIdx_pairwise (l : List DChild) :
    ∀ n, List.Pairwise idxLt (withIdx l n) := by
  induction l with
  | nil =>
    intro n
    simp [withIdx]
  | cons c rest ih =>
    intro n
    rw [withIdx]
    refine List.Pairwise.cons ?_ (ih (n + 1))
    intro y hy
    have h := withIdx_idx_ge rest (n + 1) y hy
    exact Nat.lt_of_lt_of_le (Nat.lt_succ_self n) h

lemma sort_eq_of_perm_of_strict (l d : List (DChild × Nat))
    (hperm : List.Perm l d) (hd : List.Pairwise idxLt d) :
    List.insertionSort idxLe l = d := by
  have hperm2 : List.Perm (List.insertionSort idxLe l) d :=
    (List.perm_insertionSort idxLe l).trans hperm
  have hle : List.Pairwise idxLe (List.insertionSort idxLe l) :=
    List.sorted_insertionSort idxLe l
  have hneD : List.Pairwise (fun a b : DChild × Nat => a.2 ≠ b.2) d :=
    hd.imp (fun h => Nat.ne_of_lt h)
  have hneS : List.Pairwise (fun a b : DChild × Nat => a.2 ≠ b.2)
      (List.insertionSort idxLe l) :=
    (List.Perm.pairwise_iff (fun h => Ne.symm h) hperm2).mpr hneD
  have hlt : List.Pairwise idxLt (List.insertionSort idxLe l) :=
    (hle.and hneS).imp (fun h => Nat.lt_of_le_of_ne h.1 h.2)
  exact List.eq_of_perm_of_sorted hperm2 hlt hd

lemma distribution_doc_order (slotsMap : List (String × SlotData))
    (vs : DChild → DChild) (children : List DChild)
    (order : List (DChild × Nat)) (p : String)
    (hperm : List.Perm order (withIdx children 0)) :
    updateSlotsResult slotsMap vs order p = docOrderGroup slotsMap vs children p := by
  rw [updateSlotsResult, collectGroups_lookup]
  have hfil : List.Perm
      (order.filter (fun x => targetProperty slotsMap x.1 = some p))
      ((withIdx children 0).filter (fun x => targetProperty slotsMap x.1 = some p)) :=
    hperm.filter _
  have hmap : List.Perm
      ((order.filter (fun x => targetProperty slotsMap x.1 = some p)).map
        (fun x => (vs x.1, x.2)))
      (((withIdx children 0).filter (fun x => targetProperty slotsMap x.1 = some p)).map
        (fun x => (vs x.1, x.2))) :=
    hfil.map _
  have hpw0 : List.Pairwise idxLt (withIdx children 0) := withIdx_pairwise children 0
  have hpwF : List.Pairwise idxLt
      ((withIdx children 0).filter (fun x => targetProperty slotsMap x.1 = some p)) :=
    hpw0.filter _
  have hpwD : List.Pairwise idxLt
      (((withIdx children 0).filter (fun x => targetProperty slotsMap x.1 = some p)).map
        (fun x => (vs x.1, x.2))) := by
    refine List.pairwise_map.mpr ?_
    exact hpwF.imp (fun h => h)
  rw [sort_eq_of_perm_of_strict _ _ hmap hpwD]
  rw [docOrderGroup, List.map_map]
  rfl

/-- C2 (amended).  For every set of light-DOM children distributed in one
pass, each slot's backing array lists its children in original document order
regardless of the order in which the per-child asynchronous resolutions
complete; in particular children [a(slot=x-2), b(slot=x-1), c(default)] of an
individual-slots slot x yield backing array [a, b] for x (a before b, their
document order), not [b, a]. -/
theorem distributed_order_is_document_order
    (slotsMap : List (String × SlotData)) (vs : DChild → DChild)
    (childNodes : List DChild) (order : List (DChild × Nat)) (p : String)
    (hperm : List.Perm order
      (withIdx (assignIndividualSlots slotsMap (domChildrenOf slotsMap childNodes) []) 0)) :
    updateSlotsResult slotsMap vs order p =
      docOrderGroup slotsMap vs
        (assignIndividualSlots slotsMap (domChildrenOf slotsMap childNodes) []) p :=
  distribution_doc_order slotsMap vs _ order p hperm

/-- The declared slots of the specification example: an individual-slots slot
"x" and a default slot. -/
def exampleSlotsMap : List (String × SlotData) :=
  [("x", { individualSlots := true }), ("default", {})]

/-- The children of the specification example: a carries slot="x-2", b carries
slot="x-1", c goes to the default slot. -/
def exampleChildren : List DChild :=
  [{ id := 1, isElem := true, slotAttr := some "x-2" },
   { id := 2, isElem := true, slotAttr := some "x-1" },
   { id := 3, isElem := true }]

/-- The example children after the document-ordered synchronous prefix of the
distribution pass (individual-slot assignment). -/
def exampleAnnotated : List DChild :=
  assignIndividualSlots exampleSlotsMap (domChildrenOf exampleSlotsMap exampleChildren) []

/-- A completion order in which the children resolve in reverse document
order (the last child's awaited promise settles first). -/
def exampleOrder : List (DChild × Nat) := (withIdx exampleAnnotated 0).reverse

/-- C2 witness: the theorem instantiated at the example slots and children
with the reverse-document completion order. -/
theorem distributed_order_is_document_order_witness :
    updateSlotsResult exampleSlotsMap (fun ch => ch) exampleOrder "x" =
      docOrderGroup exampleSlotsMap (fun ch => ch) exampleAnnotated "x" :=
  distributed_order_is_document_order exampleSlotsMap (fun ch => ch)
    exampleChildren exampleOrder "x" (by decide)

/-- C2 counterexample: for the example [a(slot=x-2), b(slot=x-1), c(default)]
the backing array of slot x is [a, b] — the original document order — and not
[b, a] as the claim states. -/
theorem example_backing_array_is_a_then_b :
    List.Perm exampleOrder (withIdx exampleAnnotated 0) ∧
    (updateSlotsResult exampleSlotsMap (fun ch => ch) exampleOrder "x").map DChild.id
      = [1, 2] ∧
    ¬ (updateSlotsResult exampleSlotsMap (fun ch => ch) exampleOrder "x").map DChild.id
      = [2, 1] := by
  refine ⟨by decide, by decide, by decide⟩

/-! Waiting for undefined custom-element types (`_updateSlots` lines 196-213
and the module-level `elementTimeouts` map, line 23), with time measured in
milliseconds from an arbitrary origin. -/

/-- Model of `elementTimeouts.get` / the creation at lines 204-208: look up the
shared timeout promise for the element type, creating one that resolves one
second (1000 ms) after `now` when none exists yet.  Returns the updated map
and the resolution time of the (shared) timeout promise. -/
def getOrCreateTimeout (timeouts : List (String × Nat)) (localName : String)
    (now : Nat) : List (String × Nat) × Nat :=
  match alistLookup timeouts localName with
  | some t => (timeouts, t)
  | none => (timeouts ++ [(localName, now + 1000)], now + 1000)

/-- Completion time of `await Promise.race([whenDefinedPromise,
timeoutPromise])` awaited at `now`: the earlier of the element type's
definition time (`none` when the type never gets defined) and the shared
timeout's resolution time; an already-resolved promise completes
immediately. -/
def raceCompletion (now : Nat) (whenDefined : Option Nat) (timeoutAt : Nat) : Nat :=
  max now
    (match whenDefined with
     | some d => min d timeoutAt
     | none => timeoutAt)

/-- One distribution pass over the children that are undefined custom-element
types (given by their local names), threading `elementTimeouts`.  All
get-or-create steps run in the synchronous prefix of the `domChildren.map`
callbacks, hence at the same pass time `now`.  Returns the final map and each
child's (localName, completion time of its await). -/
def awaitDefinitions (defTimes : String → Option Nat) (now : Nat) :
    List String → List (String × Nat) → List (String × Nat) × List (String × Nat)
  | [], ts => (ts, [])
  | n :: rest, ts =>
    let r := getOrCreateTimeout ts n now
    let w := awaitDefinitions defTimes now rest r.1
    (w.1, (n, raceCompletion now (defTimes n) r.2) :: w.2)

lemma alistLookup_append_some {α : Type} (m : String) (t : α) (e : List (String × α)) :
    ∀ ts : List (String × α), alistLookup ts m = some t →
      alistLookup (ts ++ e) m = some t := by
  intro ts
  induction ts with
  | nil =>
    intro h
    simp [alistLookup] at h
  | cons hd tl ih =>
    obtain ⟨q, v⟩ := hd
    intro h
    by_cases hq : q = m
    · simp [alistLookup, hq] at h ⊢
      exact h
    · simp [alistLookup, hq] at h ⊢
      exact ih h

lemma alistLookup_append_self {α : Type} (n : String) (v : α) :
    ∀ ts : List (String × α), alistLookup ts n = none →
      alistLookup (ts ++ [(n, v)]) n = some v := by
  intro ts
  induction ts with
  | nil =>
    intro h
    simp [alistLookup]
  | cons hd tl ih =>
    obtain ⟨q, w⟩ := hd
    intro h
    by_cases hq : q = n
    · simp [alistLookup, hq] at h
    · simp [alistLookup, hq] at h ⊢
      exact ih h

lemma alistLookup_mem {α : Type} (k : String) (v : α) :
    ∀ ts : List (String × α), alistLookup ts k = some v → (k, v) ∈ ts := by
  intro ts
  induction ts with
  | nil =>
    intro h
    simp [alistLookup] at h
  | cons hd tl ih =>
    obtain ⟨q, w⟩ := hd
    intro h
    by_cases hq : q = k
    · simp [alistLookup, hq] at h
      rw [← hq, ← h]
      exact List.mem_cons_self _ _
    · simp [alistLookup, hq] at h
      exact List.mem_cons_of_mem _ (ih h)

lemma getOrCreateTimeout_lookup (ts : List (String × Nat)) (n : String) (now : Nat) :
    alistLookup (getOrCreateTimeout ts n now).1 n =
      some (getOrCreateTimeout ts n now).2 := by
  cases h : alistLookup ts n with
  | some t => simp [getOrCreateTimeout, h]
  | none =>
    simp only [getOrCreateTimeout, h]
    exact alistLookup_append_self n (now + 1000) ts h

lemma getOrCreateTimeout_mono (ts : List (String × Nat)) (n : String) (now : Nat)
    (m : String) (t : Nat) (h : alistLookup ts m = some t) :
    alistLookup (getOrCreateTimeout ts n now).1 m = some t := by
  cases hn : alistLookup ts n with
  | some u => simpa [getOrCreateTimeout, hn] using h
  | none =>
    simp only [getOrCreateTimeout, hn]
    exact alistLookup_append_some m t _ ts h

lemma getOrCreateTimeout_bound (ts : List (String × Nat)) (n : String) (now : Nat)
    (hb : ∀ e ∈ ts, e.2 ≤ now + 1000) :
    (getOrCreateTimeout ts n now).2 ≤ now + 1000 ∧
    ∀ e ∈ (getOrCreateTimeout ts n now).1, e.2 ≤ now + 1000 := by
  cases hn : alistLookup ts n with
  | some u =>
    refine ⟨?_, ?_⟩
    · have hmem := alistLookup_mem n u ts hn
      have := hb (n, u) hmem
      simpa [getOrCreateTimeout, hn] using this
    · intro e he
      apply hb
      simpa [getOrCreateTimeout, hn] using he
  | none =>
    refine ⟨by simp [getOrCreateTimeout, hn], ?_⟩
    intro e he
    simp only [getOrCreateTimeout, hn] at he
    rcases List.mem_append.mp he with h | h
    · exact hb e h
    · have : e = (n, now + 1000) := by simpa using h
      rw [this]

lemma raceCompletion_bound (now : Nat) (wd : Option Nat) (tAt : Nat)
    (h : tAt ≤ now + 1000) : raceCompletion now wd tAt ≤ now + 1000 := by
  cases wd with
  | none =>
    simp only [raceCompletion]
    omega
  | some d =>
    simp only [raceCompletion]
    have : min d tAt ≤ tAt := Nat.min_le_right d tAt
    omega

lemma awaitDefinitions_mono (defTimes : String → Option Nat) (now : Nat) :
    ∀ (names : List String) (ts : List (String × Nat)) (m : String) (t : Nat),
      alistLookup ts m = some t →
      alistLookup (awaitDefinitions defTimes now names ts).1 m = some t := by
  intro names
  induction names with
  | nil =>
    intro ts m t h
    exact h
  | cons n rest ih =>
    intro ts m t h
    exact ih _ m t (getOrCreateTimeout_mono ts n now m t h)

lemma awaitDefinitions_spec (defTimes : String → Option Nat) (now : Nat) :
    ∀ (names : List String) (ts : List (String × Nat)),
      ∀ x ∈ (awaitDefinitions defTimes now names ts).2,
        ∃ t, alistLookup (awaitDefinitions defTimes now names ts).1 x.1 = some t ∧
          x.2 = raceCompletion now (defTimes x.1) t := by
  intro names
  induction names with
  | nil =>
    intro ts x hx
    simp [awaitDefinitions] at hx
  | cons n rest ih =>
    intro ts x hx
    rw [awaitDefinitions] at hx
    rcases List.mem_cons.mp hx with h | h
    · refine ⟨(getOrCreateTimeout ts n now).2, ?_, ?_⟩
      · rw [awaitDefinitions]
        have h1 := getOrCreateTimeout_lookup ts n now
        have h2 := awaitDefinitions_mono defTimes now rest
          (getOrCreateTimeout ts n now).1 n (getOrCreateTimeout ts n now).2 h1
        rw [h]
        exact h2
      · rw [h]
    · obtain ⟨t, h1, h2⟩ := ih (getOrCreateTimeout ts n now).1 x h
      exact ⟨t, by rw [awaitDefinitions]; exact h1, h2⟩

lemma awaitDefinitions_bound (defTimes : String → Option Nat) (now : Nat) :
    ∀ (names : List String) (ts : List (String × Nat)),
      (∀ e ∈ ts, e.2 ≤ now + 1000) →
      ∀ x ∈ (awaitDefinitions defTimes now names ts).2, x.2 ≤ now + 1000 := by
  intro names
  induction names with
  | nil =>
    intro ts hb x hx
    simp [awaitDefinitions] at hx
  | cons n rest ih =>
    intro ts hb x hx
    rw [awaitDefinitions] at hx
    obtain ⟨hb1, hb2⟩ := getOrCreateTimeout_bound ts n now hb
    rcases List.mem_cons.mp hx with h | h
    · rw [h]
      exact raceCompletion_bound now (defTimes n) _ hb1
    · exact ih (getOrCreateTimeout ts n now).1 hb2 x h

/-- C9.  Waiting for undefined custom-element types never stalls slot
distribution indefinitely: given that every timer already in the shared
`elementTimeouts` map expires within one second of the pass, every child's
await completes within one second of the pass — even for a type that never
gets defined — and any two children awaiting the same element type complete
at the same time because they race against the same shared timeout promise. -/
theorem undefined_type_wait_bounded_and_shared
    (defTimes : String → Option Nat) (now : Nat) (names : List String)
    (ts0 : List (String × Nat)) (x y : String × Nat)
    (hb : ∀ e ∈ ts0, e.2 ≤ now + 1000)
    (hx : x ∈ (awaitDefinitions defTimes now names ts0).2)
    (hy : y ∈ (awaitDefinitions defTimes now names ts0).2)
    (hname : x.1 = y.1) :
    x.2 ≤ now + 1000 ∧ x.2 = y.2 := by
  refine ⟨awaitDefinitions_bound defTimes now names ts0 hb x hx, ?_⟩
  obtain ⟨t, hlt, hxt⟩ := awaitDefinitions_spec defTimes now names ts0 x hx
  obtain ⟨u, hlu, hyu⟩ := awaitDefinitions_spec defTimes now names ts0 y hy
  rw [hname] at hlt hxt
  have htu : t = u := Option.some.inj (hlt.symm.trans hlu)
  rw [hxt, hyu, htu]

/-- An element type that never becomes defined. -/
def neverDefined : String → Option Nat := fun _ => none

/-- C9 witness: three children, two of them awaiting the same never-defined
type "my-list", starting from an empty timeout map at pass time 0. -/
theorem undefined_type_wait_bounded_and_shared_witness :
    ("my-list", (1000 : Nat)).2 ≤ 0 + 1000 ∧
    ("my-list", (1000 : Nat)).2 = ("my-list", (1000 : Nat)).2 :=
  undefined_type_wait_bounded_and_shared neverDefined 0
    ["my-list", "other-item", "my-list"] [] ("my-list", 1000) ("my-list", 1000)
    (by decide) (by decide) (by decide) rfl

/-! Child-change propagation (`_attachChildPropertyUpdated`,
`_detachChildPropertyUpdated`, `_invalidateParentOnPropertyUpdate`,
`_clearSlot`). -/

/-- The observed/excluded property sets recorded in `_monitoredChildProps`. -/
structure WatchRecord where
  observedProps : List String
  notObservedProps : List String
deriving DecidableEq, Repr

/-- The parent-side state touched by child-change propagation: the
`_monitoredChildProps` map, the slot-backing entries of `_state`, and a count
of the `_invalidate` calls the parent received. -/
structure Parent where
  monitoredChildProps : List (String × WatchRecord)
  slotState : List (String × List DChild)
  invalidateCalls : Nat
deriving DecidableEq, Repr

/-- Model of `_attachChildPropertyUpdated` (lines 338-363): a no-op when the
slot declares no `listenFor`; otherwise the observed set is the explicit
array, or the `props` entry of the configuration object, or all of the
child's properties when `props` is not an array, minus nothing or the
`exclude` entry; the record is stored for the slot on first use, and the
shared prototype `_propertyChange` listener is attached to the child. -/
def attachChildPropertyUpdated (parent : Parent) (child : DChild)
    (propData : SlotData) (childProperties : List String) : Parent × DChild :=
  match propData.listenFor with
  | none => (parent, child)
  | some lf =>
    let slotName := getSlotName child
    let record : WatchRecord :=
      match lf with
      | ListenFor.list props => { observedProps := props, notObservedProps := [] }
      | ListenFor.cfg props exclude =>
        { observedProps := props.getD childProperties,
          notObservedProps := exclude.getD [] }
    let parent1 :=
      if (alistLookup parent.monitoredChildProps slotName).isNone then
        { parent with monitoredChildProps :=
            parent.monitoredChildProps ++ [(slotName, record)] }
      else parent
    (parent1, { child with hasListener := true })

/-- Model of `_invalidateParentOnPropertyUpdate` (lines 390-408), executed
with `this` bound to the notifying child: when the child has no parent node
the handler returns without touching anything; otherwise it looks up the
watch record for the child's slot and calls
`parentNode._invalidate("_parent_", this)` exactly when the changed property
name is observed and not excluded. -/
def invalidateParentOnPropertyUpdate (child : DChild) (parentNode : Option Parent)
    (propName : String) : Option Parent :=
  match parentNode with
  | none => none
  | some parent =>
    let slotName := getSlotName child
    match alistLookup parent.monitoredChildProps slotName with
    | none => some parent
    | some r =>
      if r.observedProps.contains propName &&
          !(r.notObservedProps.contains propName) then
        some { parent with invalidateCalls := parent.invalidateCalls + 1 }
      else some parent

/-- Dispatch of the "_propertyChange" CustomEvent emitted by
`_propertyChange` (lines 375-385): the handler body runs only while the
shared listener is still registered on the child
(`_detachChildPropertyUpdated`, lines 368-370, removes it). -/
def dispatchPropertyChange (child : DChild) (parentNode : Option Parent)
    (propName : String) : Option Parent :=
  if child.hasListener then invalidateParentOnPropertyUpdate child parentNode propName
  else parentNode

/-- The observed set described by a `listenFor` option: the explicit list, or
all of the child's properties when unspecified. -/
def observedOf (lf : ListenFor) (childProperties : List String) : List String :=
  match lf with
  | ListenFor.list props => props
  | ListenFor.cfg props _ => props.getD childProperties

/-- The excluded set described by a `listenFor` option. -/
def excludedOf (lf : ListenFor) : List String :=
  match lf with
  | ListenFor.list _ => []
  | ListenFor.cfg _ exclude => exclude.getD []

/-- Model of `_clearSlot` (lines 244-261): read the slot's backing children,
detach the shared `_propertyChange` listener from every UI5 child among them,
reset the backing property to an empty array, and call
`_invalidate(propertyName, [])` on the component.  Returns the updated parent
together with the detached children. -/
def clearSlot (slotsMap : List (String × SlotData)) (parent : Parent)
    (slotName : String) : Parent × List DChild :=
  match alistLookup slotsMap slotName with
  | none => (parent, [])
  | some slotData =>
    let propertyName := slotData.propertyName.getD slotName
    let children := (alistLookup parent.slotState propertyName).getD []
    let detached := children.map
      (fun ch => if ch.isUI5 then { ch with hasListener := false } else ch)
    ({ parent with
        slotState := alistSet parent.slotState propertyName [],
        invalidateCalls := parent.invalidateCalls + 1 },
      detached)

lemma alistLookup_alistSet {α : Type} (k q : String) (v : α) :
    ∀ m : List (String × α),
      alistLookup (alistSet m k v) q = if k = q then some v else alistLookup m q := by
  intro m
  induction m with
  | nil => by_cases h : k = q <;> simp [alistSet, alistLookup, h]
  | cons hd tl ih =>
    obtain ⟨a, w⟩ := hd
    by_cases hak : a = k
    · have h1 : alistSet ((a, w) :: tl) k v = (a, v) :: tl := by
        simp [alistSet, hak]
      rw [h1]
      by_cases hq : k = q
      · simp [alistLookup, hq, hak.trans hq]
      · have haq : ¬ a = q := by rw [hak]; exact hq
        simp [alistLookup, hq, haq]
    · have h1 : alistSet ((a, w) :: tl) k v = (a, w) :: alistSet tl k v := by
        simp [alistSet, hak]
      rw [h1]
      by_cases haq : a = q
      · have hkq : ¬ k = q := by
          intro hh
          exact hak (haq.trans hh.symm)
        simp [alistLookup, haq, hkq]
      · simp [alistLookup, haq, ih]

lemma getSlotName_listener (child : DChild) :
    getSlotName { child with hasListener := true } = getSlotName child := rfl

/-- C4.  A child's property-changed notification invalidates the watching
parent iff the property name is in the slot's observed set (the explicit
`listenFor` list, or all of the child's properties when unspecified) and not
in the excluded set; a notifying child with no parent node is a safe no-op
that invalidates nothing. -/
theorem child_update_invalidates_parent_iff
    (parent : Parent) (child : DChild) (propData : SlotData)
    (childProperties : List String) (lf : ListenFor) (propName : String)
    (hlf : propData.listenFor = some lf)
    (hnew : alistLookup parent.monitoredChildProps (getSlotName child) = none) :
    invalidateParentOnPropertyUpdate child none propName = none ∧
    (invalidateParentOnPropertyUpdate
        (attachChildPropertyUpdated parent child propData childProperties).2
        (some (attachChildPropertyUpdated parent child propData childProperties).1)
        propName =
      some { (attachChildPropertyUpdated parent child propData childProperties).1 with
              invalidateCalls :=
                (attachChildPropertyUpdated parent child propData
                    childProperties).1.invalidateCalls + 1 } ↔
      (propName ∈ observedOf lf childProperties ∧ ¬ propName ∈ excludedOf lf)) := by
  constructor
  · rfl
  · have hatt : attachChildPropertyUpdated parent child propData childProperties =
        ({ parent with monitoredChildProps := parent.monitoredChildProps ++
            [(getSlotName child,
              { observedProps := observedOf lf childProperties,
                notObservedProps := excludedOf lf })] },
          { child with hasListener := true }) := by
      cases lf with
      | list props =>
        simp [attachChildPropertyUpdated, hlf, hnew, observedOf, excludedOf]
      | cfg props exclude =>
        simp [attachChildPropertyUpdated, hlf, hnew, observedOf, excludedOf]
    rw [hatt]
    have hlook : alistLookup
        (parent.monitoredChildProps ++
          [(getSlotName child,
            ({ observedProps := observedOf lf childProperties,
               notObservedProps := excludedOf lf } : WatchRecord))])
        (getSlotName { child with hasListener := true }) =
        some { observedProps := observedOf lf childProperties,
               notObservedProps := excludedOf lf } := by
      rw [getSlotName_listener]
      exact alistLookup_append_self _ _ parent.monitoredChildProps hnew
    by_cases hcond : propName ∈ observedOf lf childProperties ∧
        ¬ propName ∈ excludedOf lf
    · have hb : ((observedOf lf childProperties).contains propName &&
          !((excludedOf lf).contains propName)) = true := by
        simp [List.contains, List.elem_iff, hcond.1, hcond.2]
      simp [invalidateParentOnPropertyUpdate, hlook, hb, hcond.1, hcond.2]
    · have hb : ((observedOf lf childProperties).contains propName &&
          !((excludedOf lf).contains propName)) = false := by
        rcases Decidable.not_and_iff_or_not.mp hcond with h | h
        · simp [List.contains, List.elem_iff, h]
        · have h2 : propName ∈ excludedOf lf := Decidable.not_not.mp h
          simp [List.contains, List.elem_iff, h2]
      simp only [invalidateParentOnPropertyUpdate, hlook, hb, Bool.false_eq_true,
        if_false]
      refine iff_of_false ?_ hcond
      intro hh
      have := congrArg (fun o => (Option.getD o
        { monitoredChildProps := [], slotState := [], invalidateCalls := 0 }).invalidateCalls) hh
      simp at this

/-- A parent not yet watching anything. -/
def watchParent : Parent :=
  { monitoredChildProps := [], slotState := [], invalidateCalls := 0 }

/-- A UI5 child slotted under the "items" slot. -/
def watchChild : DChild :=
  { id := 7, isElem := true, slotAttr := some "items", isUI5 := true }

/-- The `listenFor` configuration of the example: observe "selected",
exclude "hidden". -/
def watchLf : ListenFor := ListenFor.cfg (some ["selected"]) (some ["hidden"])

/-- Slot metadata carrying the example `listenFor`. -/
def watchSlotData : SlotData := { listenFor := some watchLf }

/-- C4 witness: the theorem instantiated at the example watcher for the
observed, non-excluded property "selected". -/
theorem child_update_invalidates_parent_iff_witness :
    invalidateParentOnPropertyUpdate watchChild none "selected" = none ∧
    (invalidateParentOnPropertyUpdate
        (attachChildPropertyUpdated watchParent watchChild watchSlotData
          ["selected", "hidden", "text"]).2
        (some (attachChildPropertyUpdated watchParent watchChild watchSlotData
          ["selected", "hidden", "text"]).1) "selected" =
      some { (attachChildPropertyUpdated watchParent watchChild watchSlotData
              ["selected", "hidden", "text"]).1 with
              invalidateCalls :=
                (attachChildPropertyUpdated watchParent watchChild watchSlotData
                    ["selected", "hidden", "text"]).1.invalidateCalls + 1 } ↔
      ("selected" ∈ observedOf watchLf ["selected", "hidden", "text"] ∧
        ¬ "selected" ∈ excludedOf watchLf)) :=
  child_update_invalidates_parent_iff watchParent watchChild watchSlotData
    ["selected", "hidden", "text"] watchLf "selected" rfl rfl

/-- A UI5 child populating slot "items", with the shared listener attached. -/
def slottedChild : DChild :=
  { id := 9, isElem := true, slotAttr := some "items", isUI5 := true,
    hasListener := true }

/-- The watch record the parent holds for slot "items". -/
def itemsRecord : WatchRecord :=
  { observedProps := ["selected"], notObservedProps := [] }

/-- A parent watching `slottedChild` through slot "items". -/
def slottedParent : Parent :=
  { monitoredChildProps := [("items", itemsRecord)],
    slotState := [("items", [slottedChild])], invalidateCalls := 0 }

/-- The slot declarations of the example parent. -/
def itemsSlotsMap : List (String × SlotData) :=
  [("items", { listenFor := some (ListenFor.list ["selected"]) })]

/-- C5 (amended).  Clearing a slot empties its backing property, unregisters
the property-change subscription on every detached UI5 child (so a later
property-change dispatch from such a child is a no-op that reaches no parent
and no listener is leaked) — but it leaves the parent's ChildWatch record in
`_monitoredChildProps` in place. -/
theorem clear_slot_unregisters_subscription
    (slotsMap : List (String × SlotData)) (parent : Parent) (slotName : String)
    (slotData : SlotData) (ch : DChild) (q : Parent) (propName : String)
    (hslot : alistLookup slotsMap slotName = some slotData)
    (hch : ch ∈ (clearSlot slotsMap parent slotName).2)
    (hui5 : ch.isUI5 = true) :
    alistLookup (clearSlot slotsMap parent slotName).1.slotState
      (slotData.propertyName.getD slotName) = some [] ∧
    ch.hasListener = false ∧
    dispatchPropertyChange ch (some q) propName = some q ∧
    (clearSlot slotsMap parent slotName).1.monitoredChildProps =
      parent.monitoredChildProps := by
  simp only [clearSlot, hslot] at hch ⊢
  have hlis : ch.hasListener = false := by
    obtain ⟨ch0, hm, heq⟩ := List.mem_map.mp hch
    by_cases h0 : ch0.isUI5 = true
    · rw [← heq]
      simp [h0]
    · rw [← heq] at hui5
      simp [h0] at hui5
  refine ⟨?_, hlis, ?_, trivial⟩
  · rw [alistLookup_alistSet]
    simp
  · simp [dispatchPropertyChange, hlis]

/-- C5 witness: the theorem instantiated at the example parent, its slotted
child, and a later "selected" change on the detached child. -/
theorem clear_slot_unregisters_subscription_witness :
    alistLookup (clearSlot itemsSlotsMap slottedParent "items").1.slotState
      (({ listenFor := some (ListenFor.list ["selected"]) } : SlotData).propertyName.getD
        "items") = some [] ∧
    ({ slottedChild with hasListener := false } : DChild).hasListener = false ∧
    dispatchPropertyChange { slottedChild with hasListener := false }
      (some slottedParent) "selected" = some slottedParent ∧
    (clearSlot itemsSlotsMap slottedParent "items").1.monitoredChildProps =
      slottedParent.monitoredChildProps :=
  clear_slot_unregisters_subscription itemsSlotsMap slottedParent "items"
    { listenFor := some (ListenFor.list ["selected"]) }
    { slottedChild with hasListener := false } slottedParent "selected"
    rfl (by decide) rfl

/-- C5 counterexample: after `_clearSlot("items")` the parent's ChildWatch
record for "items" is still present — `_clearSlot` removes the child's event
listener but never deletes the `_monitoredChildProps` entry, refuting the
claim that the record is removed. -/
theorem clear_slot_keeps_watch_record :
    alistLookup (clearSlot itemsSlotsMap slottedParent "items").1.monitoredChildProps
      "items" = some itemsRecord ∧
    ¬ alistLookup (clearSlot itemsSlotsMap slottedParent "items").1.monitoredChildProps
      "items" = none := by
  refine ⟨by decide, by decide⟩

/-! Default state and state initialization (`_getDefaultState`,
`_initializeState`, `_generateAccessors` construction checks, `define`),
with an explicit heap so that JavaScript object identity and in-place
mutation are expressible. -/

/-- A heap object: a JS array or a plain object, addressed by `JSVal.ref`. -/
inductive HeapObj where
  | arr (elems : List JSVal)
  | obj (fields : List (String × JSVal))
deriving DecidableEq, Repr

/-- The allocation state threaded through `_getDefaultState`: the allocated
objects by address and the next fresh address. -/
structure Alloc where
  heap : List (Nat × HeapObj)
  next : Nat
deriving DecidableEq, Repr

/-- Allocation of a fresh array literal `[]` (or object literal via
`HeapObj.obj`). -/
def allocate (a : Alloc) (o : HeapObj) : Alloc × JSVal :=
  ({ heap := a.heap ++ [(a.next, o)], next := a.next + 1 }, JSVal.ref a.next)

/-- Lookup in a Nat-keyed association list (the heap). -/
def natLookup {α : Type} (m : List (Nat × α)) (k : Nat) : Option α :=
  match m with
  | [] => none
  | (q, v) :: rest => if q = k then some v else natLookup rest k

/-- Update in a Nat-keyed association list (the heap). -/
def natSet {α : Type} (m : List (Nat × α)) (k : Nat) (v : α) : List (Nat × α) :=
  match m with
  | [] => [(k, v)]
  | (q, w) :: rest => if q = k then (q, v) :: rest else (q, w) :: natSet rest k v

/-- In-place `Array.prototype.push(v)` on the heap array referenced by `addr`. -/
def heapPush (h : List (Nat × HeapObj)) (addr : Nat) (v : JSVal) :
    List (Nat × HeapObj) :=
  match natLookup h addr with
  | some (HeapObj.arr elems) => natSet h addr (HeapObj.arr (elems ++ [v]))
  | _ => h

/-- The array currently observed through a stored value (dereference). -/
def derefArr (h : List (Nat × HeapObj)) (v : JSVal) : Option (List JSVal) :=
  match v with
  | JSVal.ref addr =>
    match natLookup h addr with
    | some (HeapObj.arr elems) => some elems
    | _ => none
  | _ => none

/-- The `type` entry of a property's metadata as a JavaScript value: one of
the constructor functions (`Boolean`, `String`, `Integer`, `Object`) or a
plain string literal — JS `===` distinguishes the constructor `Boolean`
from the string "boolean". -/
inductive JSType where
  | ctorBoolean
  | ctorString
  | ctorInteger
  | ctorObject
  | strLit (s : String)
deriving DecidableEq, Repr

/-- Declared property metadata as consumed by `_getDefaultState` and
`_generateAccessors`. -/
structure PropMeta where
  type : JSType
  defaultValue : Option JSVal := none
  multiple : Bool := false
deriving DecidableEq, Repr

/-- The property half of static `_getDefaultState` (lines 686-707): Booleans
are initialized to `false` and a declared `defaultValue` merely logs a
console warning; `multiple` properties allocate one fresh empty array;
Object-typed properties take their declared default or allocate one fresh
empty object; String properties take their declared default or ""; all other
types take the declared default (undefined when absent).  Returns the
bindings, the allocation state and the number of warnings logged. -/
def defaultStateProps : List (String × PropMeta) → Alloc →
    List (String × JSVal) × Alloc × Nat
  | [], a => ([], a, 0)
  | (propName, pm) :: rest, a =>
    if pm.type = JSType.ctorBoolean then
      let r := defaultStateProps rest a
      ((propName, JSVal.bool false) :: r.1, r.2.1,
        (if pm.defaultValue.isSome then 1 else 0) + r.2.2)
    else if pm.multiple then
      let al := allocate a (HeapObj.arr [])
      let r := defaultStateProps rest al.1
      ((propName, al.2) :: r.1, r.2.1, r.2.2)
    else if pm.type = JSType.ctorObject then
      match pm.defaultValue with
      | some v =>
        let r := defaultStateProps rest a
        ((propName, v) :: r.1, r.2.1, r.2.2)
      | none =>
        let al := allocate a (HeapObj.obj [])
        let r := defaultStateProps rest al.1
        ((propName, al.2) :: r.1, r.2.1, r.2.2)
    else if pm.type = JSType.ctorString then
      let r := defaultStateProps rest a
      ((propName, pm.defaultValue.getD (JSVal.str "")) :: r.1, r.2.1, r.2.2)
    else
      let r := defaultStateProps rest a
      ((propName, pm.defaultValue.getD JSVal.undef) :: r.1, r.2.1, r.2.2)

/-- The slot half of static `_getDefaultState` (lines 710-714): each slot's
backing property is initialized with one fresh empty array. -/
def defaultStateSlots : List (String × SlotData) → Alloc →
    List (String × JSVal) × Alloc
  | [], a => ([], a)
  | (slotName, sd) :: rest, a =>
    let propertyName := sd.propertyName.getD slotName
    let al := allocate a (HeapObj.arr [])
    let r := defaultStateSlots rest al.1
    ((propertyName, al.2) :: r.1, r.2)

/-- Model of static `_getDefaultState` (lines 678-718), computed once per
class and cached (`this._defaultState`): the property bindings followed by
the slot bindings, the final allocation state, and the warning count. -/
def getDefaultState (props : List (String × PropMeta))
    (slots : List (String × SlotData)) (a : Alloc) :
    List (String × JSVal) × Alloc × Nat :=
  let rp := defaultStateProps props a
  let rs := defaultStateSlots slots rp.2.1
  (rp.1 ++ rs.1, rs.2, rp.2.2)

/-- Model of `_initializeState` (lines 330-333):
`this._state = Object.assign({}, defaultState)` — a fresh top-level object
containing the same bindings; nested values (in particular `JSVal.ref`
addresses) are copied as references, never cloned. -/
def initializeState (defaultState : List (String × JSVal)) :
    List (String × JSVal) :=
  defaultState.map (fun e => (e.1, e.2))

/-- Modelled from the spec: `isValidPropertyName` (util/isValidPropertyName.js
is not among the sources) rejects a property/slot name colliding with a
reserved/host (DOM API) name, here given as the `disallowed` set. -/
def isValidPropertyName (disallowed : List String) (name : String) : Bool :=
  !(disallowed.contains name)

/-- JavaScript truthiness of a value, as used by
`propData.defaultValue` in the boolean-default check. -/
def jsTruthy : JSVal → Bool
  | JSVal.undef => false
  | JSVal.null => false
  | JSVal.bool b => b
  | JSVal.num n => !(n == 0)
  | JSVal.str s => !(s == "")
  | JSVal.ref _ => true

/-- The property checks of `_generateAccessors` (lines 728-735): an invalid
property name throws; a property whose `type` is the STRING "boolean" (the
code literally compares `propData.type === "boolean"`, although Boolean
properties carry the constructor `Boolean`) with a truthy `defaultValue`
throws. -/
def checkProperties (disallowed : List String) :
    List (String × PropMeta) → Except String Unit
  | [] => Except.ok ()
  | (prop, propData) :: rest =>
    if !(isValidPropertyName disallowed prop) then
      Except.error (prop ++ " is not a valid property name")
    else if (propData.type == JSType.strLit "boolean") &&
        jsTruthy (propData.defaultValue.getD JSVal.undef) then
      Except.error ("Cannot set a default value for property " ++ prop)
    else checkProperties disallowed rest

/-- The slot checks of `_generateAccessors` (lines 771-774): an invalid slot
name throws. -/
def checkSlots (disallowed : List String) :
    List (String × SlotData) → Except String Unit
  | [] => Except.ok ()
  | (slotName, _) :: rest =>
    if !(isValidPropertyName disallowed slotName) then
      Except.error (slotName ++ " is not a valid property name")
    else checkSlots disallowed rest

/-- The construction-time validation performed by `_generateAccessors`
(lines 723-789): property checks first, then slot checks; the first failure
aborts accessor generation. -/
def generateAccessorsChecks (disallowed : List String)
    (properties : List (String × PropMeta)) (slots : List (String × SlotData)) :
    Except String Unit :=
  match checkProperties disallowed properties with
  | Except.error e => Except.error e
  | Except.ok _ => checkSlots disallowed slots

lemma initializeState_eq (ds : List (String × JSVal)) :
    initializeState ds = ds := by
  simp [initializeState]

/-- Class metadata declaring one slot "items" and no properties, to exhibit
the cached snapshot. -/
def itemsOnlySlots : List (String × SlotData) := [("items", {})]

/-- The cached default-state build for `itemsOnlySlots` from a fresh heap. -/
def snapshotBuild : List (String × JSVal) × Alloc × Nat :=
  getDefaultState [] itemsOnlySlots { heap := [], next := 0 }

/-- The cached snapshot (`this._defaultState`). -/
def demoSnapshot : List (String × JSVal) := snapshotBuild.1

/-- The heap after building the snapshot. -/
def demoHeap : List (Nat × HeapObj) := snapshotBuild.2.1.heap

/-- The heap address the INSTANCE state binds for "items" after
`_initializeState` — obtained by reading the instance's own copy. -/
def instanceItemsAddr : Nat :=
  match getStore (initializeState demoSnapshot) "items" with
  | JSVal.ref a => a
  | _ => 0

/-- C6 (amended).  `_initializeState` produces a fresh top-level mapping with
exactly the snapshot's bindings, so rebinding a property on one instance
never changes the snapshot's (or another instance's) bindings; but nested
values — slot-backing arrays and object-typed defaults — are copied as
references, so until rebound the instance ALIASES the snapshot's objects: an
in-place array mutation performed through the instance's reference is
observable through the cached snapshot. -/
theorem instance_state_is_shallow_copy
    (ds : List (String × JSVal)) (p q : String) (v : JSVal) (hpq : ¬ p = q) :
    getStore (initializeState ds) p = getStore ds p ∧
    getStore (setStore (initializeState ds) p v) q = getStore ds q ∧
    getStore (setStore (initializeState ds) p v) p = v ∧
    getStore (initializeState demoSnapshot) "items" = getStore demoSnapshot "items" ∧
    derefArr (heapPush demoHeap instanceItemsAddr (JSVal.num 1))
      (getStore demoSnapshot "items") = some [JSVal.num 1] := by
  refine ⟨?_, ?_, ?_, by decide, by decide⟩
  · rw [initializeState_eq]
  · rw [initializeState_eq, getStore_setStore]
    simp [hpq]
  · rw [initializeState_eq, getStore_setStore]
    simp

/-- C6 witness: the theorem instantiated at the demo snapshot, rebinding
"items" and reading back "other". -/
theorem instance_state_is_shallow_copy_witness :
    getStore (initializeState demoSnapshot) "items" = getStore demoSnapshot "items" ∧
    getStore (setStore (initializeState demoSnapshot) "items" (JSVal.str "x"))
      "other" = getStore demoSnapshot "other" ∧
    getStore (setStore (initializeState demoSnapshot) "items" (JSVal.str "x"))
      "items" = JSVal.str "x" ∧
    getStore (initializeState demoSnapshot) "items" = getStore demoSnapshot "items" ∧
    derefArr (heapPush demoHeap instanceItemsAddr (JSVal.num 1))
      (getStore demoSnapshot "items") = some [JSVal.num 1] :=
  instance_state_is_shallow_copy demoSnapshot "items" "other" (JSVal.str "x")
    (by decide)

/-- C6 counterexample: the instance's "items" binding is the very same array
reference as the snapshot's (shallow `Object.assign` copy), and pushing an
element in place through the instance's reference changes the array observed
through the cached snapshot from [] to [1] — mutating the instance's
slot-backing sequence DOES change the cached snapshot. -/
theorem inplace_mutation_reaches_snapshot :
    getStore (initializeState demoSnapshot) "items" = getStore demoSnapshot "items" ∧
    derefArr demoHeap (getStore demoSnapshot "items") = some [] ∧
    derefArr (heapPush demoHeap instanceItemsAddr (JSVal.num 1))
      (getStore demoSnapshot "items") = some [JSVal.num 1] ∧
    ¬ derefArr (heapPush demoHeap instanceItemsAddr (JSVal.num 1))
        (getStore demoSnapshot "items") = some [] := by
  decide

/-- The failing metadata for C7: a Boolean-typed property (carrying the
constructor `Boolean`) declaring `defaultValue: true`. -/
def booleanWithDefault : List (String × PropMeta) :=
  [("pressed", { type := JSType.ctorBoolean, defaultValue := some (JSVal.bool true) })]

/-- Metadata whose `type` is the string "boolean" — the only shape the dead
guard of `_generateAccessors` actually tests. -/
def stringTypedBoolean : PropMeta :=
  { type := JSType.strLit "boolean", defaultValue := some (JSVal.bool true) }

instance {ε α : Type} [DecidableEq ε] [DecidableEq α] : DecidableEq (Except ε α) :=
  fun a b =>
    match a, b with
    | Except.ok x, Except.ok y =>
      if h : x = y then Decidable.isTrue (by rw [h])
      else Decidable.isFalse (fun hh => h (Except.ok.inj hh))
    | Except.error x, Except.error y =>
      if h : x = y then Decidable.isTrue (by rw [h])
      else Decidable.isFalse (fun hh => h (Except.error.inj hh))
    | Except.ok _, Except.error _ => Decidable.isFalse (fun hh => Except.noConfusion hh)
    | Except.error _, Except.ok _ => Decidable.isFalse (fun hh => Except.noConfusion hh)

/-- C7 (code bug).  Declaring a Boolean-typed property with a truthy
non-false default does NOT raise the intended construction-time error: the
guard compares `propData.type === "boolean"` (a string) while Boolean
properties carry the constructor `Boolean`, so the check never fires and
accessor generation succeeds; `_getDefaultState` merely logs one console
warning and forces the effective default to false.  A disallowed
property name does abort with an error, and the dead guard would fire only
for the string-typed metadata it actually tests. -/
theorem boolean_default_check_never_fires :
    generateAccessorsChecks ["focus"] booleanWithDefault [] = Except.ok () ∧
    (getDefaultState booleanWithDefault [] { heap := [], next := 0 }).1 =
      [("pressed", JSVal.bool false)] ∧
    (getDefaultState booleanWithDefault [] { heap := [], next := 0 }).2.2 = 1 ∧
    (¬ generateAccessorsChecks ["focus"]
        [("focus", { type := JSType.ctorBoolean })] [] = Except.ok ()) ∧
    checkProperties [] [("toggled", stringTypedBoolean)] =
      Except.error ("Cannot set a default value for property " ++ "toggled") := by
  decide

/-- The process-wide registries of `define` (lines 20-21 and 812-832): the
module-level `DefinitionsSet`, the browser `customElements` registry
(tag → defining class identity), the multiset of classes for which
`_generateAccessors` ran, and the number of console warnings logged. -/
structure Registry where
  definitionsSet : List String
  customElements : List (String × Nat)
  accessorsGenerated : List Nat
  warnings : Nat
deriving DecidableEq, Repr

/-- The registries at process start. -/
def emptyRegistry : Registry :=
  { definitionsSet := [], customElements := [], accessorsGenerated := [],
    warnings := 0 }

/-- Model of static `define` (lines 812-832) called on class `classId` whose
metadata tag is `tag`: when the tag is defined globally but not recorded in
the local `DefinitionsSet`, log a warning and do nothing else; when the tag
is not defined globally, generate accessors, record the tag locally and
define the custom element; otherwise — defined globally AND recorded
locally — fall through both branches: no warning, no other effect. -/
def defineStep (classId : Nat) (tag : String) (r : Registry) : Registry :=
  let definedLocally := r.definitionsSet.contains tag
  let definedGlobally := (alistLookup r.customElements tag).isSome
  if definedGlobally && !definedLocally then
    { r with warnings := r.warnings + 1 }
  else if !definedGlobally then
    { r with
        accessorsGenerated := r.accessorsGenerated ++ [classId],
        definitionsSet := r.definitionsSet ++ [tag],
        customElements := r.customElements ++ [(tag, classId)] }
  else r

lemma contains_append_self (l : List String) (tag : String) :
    (l ++ [tag]).contains tag = true := by
  simp [List.contains, List.elem_iff]

/-- C8 (amended).  A first `define()` for a globally fresh tag generates
accessors and records the definition; a second `define()` of the same class
and tag is a SILENT no-op (no warning — both branches are skipped), with
accessors generated exactly once and exactly one definition recorded; and a
`define()` for a tag that is globally registered but not recorded in the
local definitions set (registered by another copy of the library) is a no-op
with a warning. -/
theorem define_registers_once
    (classId otherId : Nat) (tag tag2 : String) (r s : Registry)
    (hglob : alistLookup r.customElements tag = none)
    (hacc : r.accessorsGenerated.count classId = 0)
    (hloc : r.definitionsSet.count tag = 0)
    (hglobS : (alistLookup s.customElements tag2).isSome = true)
    (hlocS : s.definitionsSet.contains tag2 = false) :
    defineStep classId tag (defineStep classId tag r) = defineStep classId tag r ∧
    (defineStep classId tag (defineStep classId tag r)).warnings = r.warnings ∧
    (defineStep classId tag r).accessorsGenerated.count classId = 1 ∧
    (defineStep classId tag r).definitionsSet.count tag = 1 ∧
    defineStep otherId tag2 s = { s with warnings := s.warnings + 1 } := by
  have h1 : defineStep classId tag r =
      { r with
          accessorsGenerated := r.accessorsGenerated ++ [classId],
          definitionsSet := r.definitionsSet ++ [tag],
          customElements := r.customElements ++ [(tag, classId)] } := by
    simp [defineStep, hglob]
  have hglob2 : alistLookup (r.customElements ++ [(tag, classId)]) tag =
      some classId := alistLookup_append_self tag classId r.customElements hglob
  have h2 : defineStep classId tag (defineStep classId tag r) =
      defineStep classId tag r := by
    rw [h1]
    simp [defineStep, hglob2, contains_append_self]
  refine ⟨h2, ?_, ?_, ?_, ?_⟩
  · rw [h2, h1]
  · rw [h1]
    simp [hacc]
  · rw [h1]
    simp [hloc]
  · have hmemS : ¬ tag2 ∈ s.definitionsSet := by
      intro hm
      have hc : s.definitionsSet.contains tag2 = true := by
        simp [List.contains, List.elem_iff, hm]
      rw [hc] at hlocS
      exact Bool.noConfusion hlocS
    simp [defineStep, hglobS, hmemS, hlocS]

/-- A registry in which another copy of the library already defined
"ui5-button" globally (class 99), with nothing recorded locally. -/
def foreignRegistry : Registry :=
  { definitionsSet := [], customElements := [("ui5-button", 99)],
    accessorsGenerated := [], warnings := 0 }

/-- C8 witness: class 1 defines the fresh tag "ui5-card" twice on an empty
registry; class 2 tries the foreign-defined tag "ui5-button". -/
theorem define_registers_once_witness :
    defineStep 1 "ui5-card" (defineStep 1 "ui5-card" emptyRegistry) =
      defineStep 1 "ui5-card" emptyRegistry ∧
    (defineStep 1 "ui5-card" (defineStep 1 "ui5-card" emptyRegistry)).warnings =
      emptyRegistry.warnings ∧
    (defineStep 1 "ui5-card" emptyRegistry).accessorsGenerated.count 1 = 1 ∧
    (defineStep 1 "ui5-card" emptyRegistry).definitionsSet.count "ui5-card" = 1 ∧
    defineStep 2 "ui5-button" foreignRegistry =
      { foreignRegistry with warnings := foreignRegistry.warnings + 1 } :=
  define_registers_once 1 2 "ui5-card" "ui5-button" emptyRegistry foreignRegistry
    rfl rfl rfl rfl rfl

/-- C8 counterexample: the second `define()` of the same class under the same
tag is a no-op but emits NO warning — when the tag is defined globally and
recorded locally both branches are skipped — refuting the claim's "no-op
with a warning". -/
theorem second_define_is_silent :
    defineStep 1 "ui5-button" (defineStep 1 "ui5-button" emptyRegistry) =
      defineStep 1 "ui5-button" emptyRegistry ∧
    (defineStep 1 "ui5-button" (defineStep 1 "ui5-button" emptyRegistry)).warnings
      = 0 ∧
    ¬ 1 ≤ (defineStep 1 "ui5-button"
        (defineStep 1 "ui5-button" emptyRegistry)).warnings := by
  decide

/-- The module-local state of `src/unnamed/part_000`: the `animationMode`
cache, where `none` models the `undefined` of the never-assigned `let`. -/
structure AnimationModuleState where
  animationMode : Option String
deriving DecidableEq, Repr

/-- Model of `getAnimationMode` (part_000 lines 5-11): when the cache is
undefined the code calls the external `getConfiguredAnimationMode()` — whose
result would be `configured` — but DISCARDS the result: the source contains
no assignment to `animationMode`.  It then returns the cache.  Returns the
new module state, the number of configuration reads performed by this call,
and the value returned to the caller. -/
def getAnimationModeStep (configured : String) (s : AnimationModuleState) :
    AnimationModuleState × Nat × Option String :=
  if s.animationMode = none then
    (s, 1, s.animationMode)
  else
    (s, 0, s.animationMode)

/-- C10 (code bug).  The animation-mode getter never initializes its cache:
the lazy-initialization branch calls the configuration getter and discards
the result (`animationMode = getConfiguredAnimationMode()` was evidently
intended), so with the configuration set to "minimal" the first call
returns undefined (`none`) instead of the configured mode, the cache stays
uninitialized, and a second call re-reads the configuration and again
returns undefined. -/
theorem animation_mode_never_initialized :
    getAnimationModeStep "minimal" { animationMode := none } =
      ({ animationMode := none }, 1, none) ∧
    getAnimationModeStep "minimal"
        (getAnimationModeStep "minimal" { animationMode := none }).1 =
      ({ animationMode := none }, 1, none) ∧
    ¬ (getAnimationModeStep "minimal" { animationMode := none }).2.2 =
        some "minimal" := by
  decide

end UI5
